import Mathlib

/-
Verification of the project discovery and lifecycle classification pipeline
of the "Personal OS" automation scripts.

The Lean definitions below are shallow embeddings of the Python functions in
`project-discovery-service.py` (class ProjectDiscoveryService) and
`lifecycle-manager.py` (class ProjectLifecycleManager).  Conventions:

* A directory as seen by the discovery service's immediate-children checks
  (`(path / name).exists()`, `path.glob(pattern)`) is an `FDir`: the names of
  its immediate children plus its own name / parent name / path.
* A directory as seen by the lifecycle manager's recursive walks
  (`path.rglob('*')`) is a `PDir`, whose `entries` list one `Entry` per
  filesystem object under the directory, in walk order.  Each `Entry` carries
  the data the Python code reads from it: full path string, base name,
  extension (`Path.suffix`), whether it is a regular file, whether
  `Path.stat()` succeeds for it (`statOk`), its modification age in whole
  days (`(datetime.now() - mtime).days`, an integer that may be negative for
  future timestamps), and its size in bytes.
* Fallible operations (raising Python code) return `Except Unit`.
* Python floats are modelled as ℚ; `datetime.now()` values are passed in as
  plain `now` strings; day arithmetic is passed in pre-computed, as integer
  day counts.
* String helpers (`strContains`, `strToLower`, ...) re-implement the Python
  `in` / `.lower()` / `.split()` / `.strip()` operations structurally over
  `List Char`, so that concrete runs reduce in the kernel.  `strToLower`
  lowercases the ASCII range exactly like CPython does for the ASCII file
  names appearing here.
-/

namespace Systems

/-! ### String helpers (Python `in`, `.lower()`, `.startswith`, `.endswith`,
`.split`, `.strip`, slicing) -/

/-- Is `pat` an initial segment of `l`? (structural, kernel-reducible). -/
def listIsPre : List Char → List Char → Bool
  | [], _ => true
  | _ :: _, [] => false
  | a :: as, b :: bs => a = b && listIsPre as bs

/-- Does `pat` occur as a contiguous sub-list of `l`? -/
def listHasSub (pat : List Char) : List Char → Bool
  | [] => listIsPre pat []
  | b :: bs => listIsPre pat (b :: bs) || listHasSub pat bs

/-- Python `pat in s` (substring containment). -/
def strContains (s pat : String) : Bool :=
  listHasSub pat.toList s.toList

/-- Python `s.lower()` restricted to ASCII (all file names in the sources are
ASCII). -/
def strToLower (s : String) : String :=
  ⟨s.toList.map Char.toLower⟩

/-- Python `s.startswith(pat)`. -/
def strStartsWith (s pat : String) : Bool :=
  listIsPre pat.toList s.toList

/-- Python `s.endswith(pat)`. -/
def strEndsWith (s pat : String) : Bool :=
  listIsPre pat.toList.reverse s.toList.reverse

/-- Python whitespace test used by `str.strip()` (the whitespace actually
appearing in the sources). -/
def isPySpace (c : Char) : Bool :=
  c = ' ' || c = '\t' || c = '\n' || c = '\r'

/-- Python `s.strip()`. -/
def strTrim (s : String) : String :=
  ⟨((s.toList.dropWhile isPySpace).reverse.dropWhile isPySpace).reverse⟩

/-- Python `s[n:]` (drop the first `n` characters). -/
def strDrop (s : String) (n : Nat) : String :=
  ⟨s.toList.drop n⟩

/-- Fuel-driven worker for `strSplitOn`; fuel bounds the number of consumed
characters, so `s.length + 1` fuel always suffices. -/
def splitFuel (sep : List Char) : Nat → List Char → List Char → List (List Char)
  | 0, l, acc => [acc.reverse ++ l]
  | _ + 1, [], acc => [acc.reverse]
  | fuel + 1, c :: rest, acc =>
    if listIsPre sep (c :: rest) then
      acc.reverse :: splitFuel sep fuel (List.drop (sep.length - 1) rest) []
    else
      splitFuel sep fuel rest (c :: acc)

/-- Python `s.split(sep)` for a non-empty separator. -/
def strSplitOn (s sep : String) : List String :=
  if sep.toList.isEmpty then [s]
  else (splitFuel sep.toList (s.toList.length + 1) s.toList []).map (fun l => ⟨l⟩)

/-! ### Files as seen by recursive walks (`Path.rglob('*')`) -/

/-- One filesystem object yielded by `project_path.rglob('*')`. -/
structure Entry where
  path : String
  name : String
  ext : String
  isFile : Bool
  statOk : Bool
  daysAgo : Int
  size : Nat
deriving DecidableEq, Repr

/-! ### `lifecycle-manager.py` : activity score and directory size -/

/-- Loop body of `ProjectLifecycleManager.calculate_activity_score`
(lines 161-183).  The Python loop has no try/except: a failing
`file_path.stat()` raises out of the whole computation, which we model as
`Except.error ()`.  Accumulates (total_score, file_count).  `dayWeight` is
the recency if/elif chain of the loop body; `days_ago` may be negative for a
file whose mtime lies in the future (such a file scores 5, via the
`days_ago <= 7` branch, exactly as in Python). -/
def dayWeight (days_ago : Int) : ℚ :=
  if days_ago = 0 then 10
  else if days_ago ≤ 7 then 5
  else if days_ago ≤ 30 then 2
  else if days_ago ≤ 90 then 1
  else 0

/-- The accumulation loop of `calculate_activity_score` itself. -/
def activityLoop : List Entry → ℚ → Nat → Except Unit (ℚ × Nat)
  | [], total, count => Except.ok (total, count)
  | e :: rest, total, count =>
    if e.isFile then
      if e.statOk then
        activityLoop rest (total + dayWeight e.daysAgo) (count + 1)
      else Except.error ()
    else activityLoop rest total count

/-- `ProjectLifecycleManager.calculate_activity_score`: recency-weighted sum
divided by `max(file_count, 1)`. -/
def calculate_activity_score (es : List Entry) : Except Unit ℚ :=
  (activityLoop es 0 0).map (fun tc => tc.1 / ((max tc.2 1 : Nat) : ℚ))

/-- Loop of `ProjectLifecycleManager.get_directory_size` (lines 246-256).
The single try/except wraps the *whole* loop: the first failing stat aborts
the walk and the size accumulated so far is kept. -/
def sizeLoop : List Entry → Nat → Nat
  | [], total => total
  | e :: rest, total =>
    if e.isFile then
      if e.statOk then sizeLoop rest (total + e.size) else total
    else sizeLoop rest total

/-- Python `round(x, 2)` up to the half-even tie rule, which no value in this
development exercises. -/
def pyRound2 (q : ℚ) : ℚ :=
  ((round (q * 100) : ℤ) : ℚ) / 100

/-- `ProjectLifecycleManager.get_directory_size`: bytes to MB, rounded. -/
def get_directory_size (es : List Entry) : ℚ :=
  pyRound2 ((sizeLoop es 0 : ℚ) / (1024 * 1024))

/-! ### `lifecycle-manager.py` : project type classification -/

/-- `file_names` as computed inside `classify_project_type`: lower-cased base
names of the regular files under the directory. -/
def lc_file_names (es : List Entry) : List String :=
  (es.filter (fun f => f.isFile)).map (fun f => strToLower f.name)

/-- `file_extensions` as computed inside `classify_project_type`: lower-cased
`Path.suffix` of the regular files. -/
def lc_file_extensions (es : List Entry) : List String :=
  (es.filter (fun f => f.isFile)).map (fun f => strToLower f.ext)

/-- `ProjectLifecycleManager.classify_project_type` (lines 131-159). Note the
check order: the package/dependency manifests come **before** the
claude/notes markers. `len(files)` counts every entry `rglob` yields,
directories included. -/
def classify_project_type (es : List Entry) : String :=
  let files := es
  let file_extensions := lc_file_extensions es
  let file_names := lc_file_names es
  if ["package.json", "requirements.txt", "cargo.toml", "go.mod"].any
      (fun n => n ∈ file_names) then "development"
  else if ["claude.md", "project-notes.md", "todo.md"].any
      (fun n => n ∈ file_names) then "claude-project"
  else if ".py" ∈ file_extensions ∧
      files.any (fun f => strContains (strToLower f.path) "scraper") then "scraper"
  else if ([".csv", ".xlsx", ".json"].any (fun x => x ∈ file_extensions)) ∧
      files.length < 50 then "data-analysis"
  else if ["dashboard.html", "index.html"].any (fun n => n ∈ file_names) then "dashboard"
  else if files.length < 10 then "one-off"
  else if files.any (fun f =>
      strContains (strToLower f.path) "system" || strContains (strToLower f.path) "tool")
    then "system-tool"
  else "ongoing"

/-! ### `project-discovery-service.py` : directories as seen by the
immediate-children checks -/

/-- A candidate directory as inspected by `ProjectDiscoveryService`:
`entries` are the names of its immediate children (used by
`(path / name).exists()` and `path.glob("*.ext")`). -/
structure FDir where
  name : String
  parentName : String
  path : String
  mtimeIso : String
  isDir : Bool
  entries : List String
deriving DecidableEq, Repr

/-- `skip_dirs` of `ProjectDiscoveryService.is_project_directory`. -/
def skip_dirs : List String :=
  [".git", ".venv", "node_modules", "__pycache__", ".DS_Store",
   "systems", ".vault", "backups"]

/-- `project_indicators` of `is_project_directory`. -/
def project_indicators : List String :=
  ["CLAUDE.md", "package.json", "requirements.txt", "Cargo.toml",
   "go.mod", "README.md", "index.html", ".gitignore"]

/-- `key_indicators` of `is_project_directory`. -/
def key_indicators : List String :=
  ["CLAUDE.md", "package.json", "requirements.txt"]

/-- The weak (non-key) indicators; `project_indicators` is exactly
`key_indicators ++ weak_indicators`. -/
def weak_indicators : List String :=
  ["Cargo.toml", "go.mod", "README.md", "index.html", ".gitignore"]

/-- `ProjectDiscoveryService.is_project_directory` (lines 116-149). -/
def is_project_directory (d : FDir) : Bool :=
  if ¬ d.isDir then false
  else if d.name ∈ skip_dirs then false
  else
    let indicators_found := (project_indicators.filter (fun i => i ∈ d.entries)).length
    let has_key_indicator := key_indicators.any (fun i => i ∈ d.entries)
    decide (indicators_found ≥ 2) || has_key_indicator

/-- Number of immediate children matching `path.glob("*" ++ suffix)`. -/
def countGlob (suffix : String) (d : FDir) : Nat :=
  (d.entries.filter (fun e => strEndsWith e suffix)).length

/-- The record built by `ProjectDiscoveryService.analyze_project_quick`. -/
structure QRecord where
  id : String
  name : String
  path : String
  discovered_at : String
  type : String
  status : String
  last_modified : String
deriving DecidableEq, Repr

/-- `ProjectDiscoveryService.analyze_project_quick` (lines 151-199): type
priority cascade (CLAUDE.md first) and location-derived status. -/
def analyze_project_quick (now : String) (d : FDir) : QRecord :=
  let t :=
    if "CLAUDE.md" ∈ d.entries then "claude-project"
    else if "package.json" ∈ d.entries then "development-nodejs"
    else if "requirements.txt" ∈ d.entries then "development-python"
    else if "index.html" ∈ d.entries then "web-project"
    else if countGlob ".csv" d > 0 then "data-analysis"
    else if ["scraper", "bot", "crawler"].any
        (fun w => strContains (strToLower d.name) w) then "automation"
    else
      let py_files := countGlob ".py" d
      let js_files := countGlob ".js" d
      if py_files > js_files then "development-python"
      else if js_files > 0 then "development-web"
      else "general"
  let status :=
    if d.parentName = "active" then "active"
    else if d.parentName = "staging" then "staging"
    else if d.parentName = "archive" then "archived"
    else "discovered"
  { id := d.name, name := d.name, path := d.path, discovered_at := now,
    type := t, status := status, last_modified := d.mtimeIso }

/-- Python `dict[key] = value` on an insertion-ordered dict modelled as an
association list: overwrite in place if the key is present, append
otherwise. -/
def assocUpsert {β : Type} (reg : List (String × β)) (id : String) (r : β) :
    List (String × β) :=
  if reg.any (fun p => p.1 = id) then
    reg.map (fun p => if p.1 = id then (id, r) else p)
  else reg ++ [(id, r)]

/-- Mutable state of `ProjectDiscoveryService` relevant to discovery: the
in-memory registry (`self.registry["projects"]` and its `last_updated`
stamp, written by `save_registry`) and `self.known_projects`. -/
structure DState where
  projects : List (String × QRecord)
  known : List String
  lastUpdated : String
deriving DecidableEq, Repr

/-- Registration step shared by both branches of `check_new_project`:
registry insert, `known_projects.add`, `save_registry` (which stamps
`last_updated`). -/
def registerProject (now : String) (s : DState) (id : String) (r : QRecord) : DState :=
  { projects := assocUpsert s.projects id r, known := id :: s.known, lastUpdated := now }

/-- `ProjectDiscoveryService.check_new_project` (lines 201-265).  `tmpl`
models `apply_template_inheritance`, which writes template files into the
directory (it never renames it).  Returns (registered?, the possibly
templated directory, new state). -/
def check_new_project (tmpl : FDir → FDir) (now : String) (s : DState) (d : FDir) :
    Bool × FDir × DState :=
  if d.isDir = true ∧ d.parentName ∈ ["active", "staging", "archive"] ∧ d.name ∉ s.known then
    let d' := tmpl d
    if is_project_directory d' then
      (true, d', registerProject now s d.name (analyze_project_quick now d'))
    else (false, d', s)
  else
    if ¬ is_project_directory d then (false, d, s)
    else if d.name ∈ s.known then (false, d, s)
    else (true, d, registerProject now s d.name (analyze_project_quick now d))

/-- `ProjectDiscoveryService.discover_all_projects` (lines 535-549): the
items of all watch directories, flattened in iteration order.  Returns
(number of newly registered projects, the directories after the scan
(templates may have been applied), final state). -/
def discover_all_projects (tmpl : FDir → FDir) (now : String) :
    List FDir → DState → Nat × List FDir × DState
  | [], s => (0, [], s)
  | d :: rest, s =>
    if d.isDir = true ∧ is_project_directory d = true then
      let r := check_new_project tmpl now s d
      let rec' := discover_all_projects tmpl now rest r.2.2
      ((if r.1 then 1 else 0) + rec'.1, r.2.1 :: rec'.2.1, rec'.2.2)
    else
      let rec' := discover_all_projects tmpl now rest s
      (rec'.1, d :: rec'.2.1, rec'.2.2)

/-! ### `lifecycle-manager.py` : project analysis -/

/-- Parse result of `json.load` on a `package.json` (the two keys
`extract_project_metadata` reads). -/
structure PkgJson where
  pkgName : Option String
  description : Option String
deriving DecidableEq, Repr

instance {ε α : Type} [DecidableEq ε] [DecidableEq α] : DecidableEq (Except ε α) :=
  fun x y =>
    match x, y with
    | Except.error a, Except.error b =>
      if h : a = b then Decidable.isTrue (by rw [h])
      else Decidable.isFalse (by intro hh; injection hh; contradiction)
    | Except.ok a, Except.ok b =>
      if h : a = b then Decidable.isTrue (by rw [h])
      else Decidable.isFalse (by intro hh; injection hh; contradiction)
    | Except.error _, Except.ok _ => Decidable.isFalse (by intro hh; injection hh)
    | Except.ok _, Except.error _ => Decidable.isFalse (by intro hh; injection hh)

/-- A directory as inspected by `ProjectLifecycleManager`: its recursive
entries, plus the contents of `CLAUDE.md` / `package.json` when present
(`none`: file absent; `some (Except.error ())`: reading/parsing raises,
which the Python code catches; `some (Except.ok _)`: content). -/
structure PDir where
  name : String
  parentName : String
  path : String
  mtimeIso : String
  isDir : Bool
  entries : List Entry
  claudeMd : Option (Except Unit String)
  packageJson : Option (Except Unit PkgJson)
deriving DecidableEq, Repr

/-- The metadata keys `extract_project_metadata` can set.  Python stores a
dict; `description` is `some none` when the key is present with value
`None` (a `package.json` without a `description` entry). -/
structure Meta where
  title : Option String
  tags : Option (List String)
  description : Option (Option String)
deriving DecidableEq, Repr

/-- `ProjectLifecycleManager.extract_project_metadata` (lines 208-244).
Each file is wrapped in its own try/except, so a failing read leaves the
metadata collected so far untouched. -/
def extract_project_metadata (d : PDir) : Meta :=
  let m : Meta := ⟨none, none, none⟩
  let m :=
    match d.claudeMd with
    | some (Except.ok content) =>
      let lines := strSplitOn content "\n"
      let m1 :=
        match lines.find? (fun l => strStartsWith l "# ") with
        | some l => { m with title := some (strTrim (strDrop l 2)) }
        | none => m
      if strContains content "Tags:" then
        match lines.filter (fun l => strContains l "Tags:") with
        | tl :: _ =>
          let tags := (strSplitOn (strTrim ((strSplitOn tl "Tags:").getD 1 "")) ",").map strTrim
          { m1 with tags := some tags }
        | [] => m1
      else m1
    | _ => m
  match d.packageJson with
  | some (Except.ok pkg) =>
    { m with
      title := match pkg.pkgName with | some n => some n | none => m.title,
      description := some pkg.description }
  | _ => m

/-- `ProjectLifecycleManager.determine_lifecycle_stage` (lines 185-206):
location is authoritative; otherwise a `should_be_*` recommendation derived
from the activity score (whose stat failures propagate). -/
def determine_lifecycle_stage (d : PDir) : Except Unit String :=
  if d.parentName = "active" then Except.ok "active"
  else if d.parentName = "staging" then Except.ok "staging"
  else if d.parentName = "archive" then Except.ok "archived"
  else if d.parentName = "systems" then Except.ok "system"
  else
    (calculate_activity_score d.entries).map (fun activity_score =>
      if activity_score > 5 then "should_be_active"
      else if activity_score > 1 then "should_be_staging"
      else "should_be_archived")

/-- The record built by `ProjectLifecycleManager.analyze_project`.  The
enrichment keys other collaborators may add are not modelled; `meta` holds
the keys merged in from `extract_project_metadata`. -/
structure LRecord where
  id : String
  name : String
  path : String
  discovered_at : String
  last_modified : String
  size_mb : ℚ
  file_count : Nat
  type : String
  activity_score : ℚ
  lifecycle_stage : String
  meta : Meta
deriving DecidableEq, Repr

/-- `ProjectLifecycleManager.analyze_project` (lines 101-129).  A stat
failure inside the activity walks raises out of the whole analysis. -/
def analyze_project (now : String) (d : PDir) : Except Unit LRecord := do
  let size_mb := get_directory_size d.entries
  let ptype := classify_project_type d.entries
  let activity_score ← calculate_activity_score d.entries
  let lifecycle_stage ← determine_lifecycle_stage d
  let meta := extract_project_metadata d
  Except.ok
    { id := d.name, name := d.name, path := d.path, discovered_at := now,
      last_modified := d.mtimeIso, size_mb := size_mb,
      file_count := d.entries.length, type := ptype,
      activity_score := activity_score, lifecycle_stage := lifecycle_stage,
      meta := meta }

/-- `ProjectLifecycleManager.discover_projects` (lines 74-99): scan the
immediate children of the scan root, analyze each eligible directory, and
insert/update the registry (Python's `dict.update` with a full record
overwrites every modelled field).  Returns (discovered records, updated
registry projects). -/
def discover_projects (now : String) :
    List PDir → List (String × LRecord) → Except Unit (List LRecord × List (String × LRecord))
  | [], reg => Except.ok ([], reg)
  | d :: rest, reg =>
    if d.isDir = true ∧ ¬ strStartsWith d.name "." = true ∧
        d.name ∉ ["systems", "active", "staging", "archive"] then do
      let info ← analyze_project now d
      let reg' := assocUpsert reg d.name info
      let r ← discover_projects now rest reg'
      Except.ok (info :: r.1, r.2)
    else
      discover_projects now rest reg

/-! ### Registry loading (`load_project_registry` / `load_registry`) -/

/-- The `settings` block of the lifecycle manager's default registry. -/
structure Settings where
  auto_archive_days : Nat
  cleanup_check_interval : Nat
  backup_retention_days : Nat
deriving DecidableEq, Repr

/-- The lifecycle manager's registry document. -/
structure RegistryDoc where
  projects : List (String × LRecord)
  last_updated : String
  settings : Settings
deriving DecidableEq, Repr

/-- The default document `load_project_registry` builds when the file is
missing. -/
def default_registry (now : String) : RegistryDoc :=
  { projects := [], last_updated := now,
    settings := { auto_archive_days := 30, cleanup_check_interval := 7,
                  backup_retention_days := 30 } }

/-- `ProjectLifecycleManager.save_project_registry` (lines 68-72): stamp
`last_updated` and overwrite the file; the returned document is what ends up
on disk. -/
def save_project_registry (now : String) (doc : RegistryDoc) : RegistryDoc :=
  { doc with last_updated := now }

/-- `ProjectLifecycleManager.load_project_registry` (lines 50-66).  The
registry file is `none` when missing, `some (Except.error ())` when
`json.load` raises on corrupt contents (there is no handler: the error
propagates), `some (Except.ok doc)` otherwise.  The loaded or default
document is immediately saved. -/
def load_project_registry (now : String) (file : Option (Except Unit RegistryDoc)) :
    Except Unit RegistryDoc :=
  match file with
  | some (Except.ok doc) => Except.ok (save_project_registry now doc)
  | some (Except.error e) => Except.error e
  | none => Except.ok (save_project_registry now (default_registry now))

/-- The `discovery_settings` block of the discovery service's default
registry. -/
structure DiscoverySettings where
  auto_discovery : Bool
  sync_frequency_minutes : Nat
  watch_patterns : List String
deriving DecidableEq, Repr

/-- The discovery service's registry document. -/
structure DRegistryDoc where
  projects : List (String × QRecord)
  last_updated : String
  discovery_settings : DiscoverySettings
deriving DecidableEq, Repr

/-- `ProjectDiscoveryService.load_registry` (lines 94-108): missing file
gives an in-memory default (not persisted); corrupt contents raise. -/
def load_registry (now : String) (file : Option (Except Unit DRegistryDoc)) :
    Except Unit DRegistryDoc :=
  match file with
  | some (Except.ok r) => Except.ok r
  | some (Except.error e) => Except.error e
  | none =>
    Except.ok
      { projects := [], last_updated := now,
        discovery_settings :=
          { auto_discovery := true, sync_frequency_minutes := 5,
            watch_patterns := ["CLAUDE.md", "TODO.md", "package.json", "requirements.txt"] } }

/-! ### `suggest_lifecycle_actions` -/

/-- The registry fields `suggest_lifecycle_actions` reads from an entry (the
schema `analyze_project` writes).  `days_inactive` is the pre-computed
`(datetime.now() - fromisoformat(last_modified)).days`; `activity_score` is
`none` when the key is absent (Python reads it with `.get(_, 0)`). -/
structure SRecord where
  path : String
  lifecycle_stage : String
  activity_score : Option ℚ
  days_inactive : Int
  size_mb : ℚ
deriving DecidableEq, Repr

/-- One suggestion dict. -/
structure Suggestion where
  action : String
  project : String
  reason : String
  priority : String
deriving DecidableEq, Repr

/-- Python `f-string` rendering of the activity score with `:.1f`
(one-decimal rounding; exact float formatting is immaterial to every claim
below). -/
def fmt1f (q : ℚ) : String :=
  toString (round (q * 10) : ℤ) ++ "/10"

/-- The suggestions `suggest_lifecycle_actions` (lines 258-309) emits for a
single registry entry.  A missing path short-circuits (`continue`) with a
single high-priority `remove_registry_entry`. -/
def suggestions_for (auto_archive_days : Int) (fsExists : String → Bool)
    (pid : String) (p : SRecord) : List Suggestion :=
  if fsExists p.path = false then
    [{ action := "remove_registry_entry", project := pid,
       reason := "Project directory no longer exists", priority := "high" }]
  else
    let activity_score := p.activity_score.getD 0
    let days_inactive := p.days_inactive
    let s1 :=
      if p.lifecycle_stage ∈ ["should_be_active", "should_be_staging", "should_be_archived"] then
        [{ action := "move_project", project := pid,
           reason := "Activity score: " ++ fmt1f activity_score ++ ", " ++
             toString days_inactive ++ " days inactive",
           priority := "medium" : Suggestion }]
      else []
    let s2 :=
      if days_inactive > auto_archive_days ∧ p.lifecycle_stage ∉ ["archived", "system"] then
        [{ action := "auto_archive", project := pid,
           reason := "Inactive for " ++ toString days_inactive ++ " days (threshold: " ++
             toString auto_archive_days ++ ")",
           priority := "low" : Suggestion }]
      else []
    let s3 :=
      if p.size_mb > 100 then
        [{ action := "review_cleanup", project := pid,
           reason := "Large project: " ++ toString p.size_mb.num ++ "MB",
           priority := "low" : Suggestion }]
      else []
    s1 ++ s2 ++ s3

/-- `ProjectLifecycleManager.suggest_lifecycle_actions`: iterate the registry
entries in insertion order. -/
def suggest_lifecycle_actions (auto_archive_days : Int) (fsExists : String → Bool)
    (projects : List (String × SRecord)) : List Suggestion :=
  match projects with
  | [] => []
  | (pid, p) :: rest =>
    suggestions_for auto_archive_days fsExists pid p ++
      suggest_lifecycle_actions auto_archive_days fsExists rest

/-! ### `move_project` -/

/-- A registry entry as `move_project` sees it: a JSON object, i.e. an
insertion-ordered field map (this is what lets us state that *every* other
field survives a failed move). -/
abbrev MRec : Type := List (String × String)

/-- Python `info[key]` (with "" for the never-occurring missing-key case). -/
def getField (info : MRec) (key : String) : String :=
  (List.lookup key info).getD ""

/-- Python `info[key] = v`. -/
def setField (info : MRec) (key v : String) : MRec :=
  assocUpsert info key v

/-- Mutable state touched by `move_project`: base path, registry `projects`
map, and the set of directory paths existing on disk. -/
structure MState where
  base : String
  registry : List (String × MRec)
  fs : List String
deriving DecidableEq

/-- The `target_dirs` table of `move_project` (lines 346-352), with the
constructor-built directory paths of `ProjectLifecycleManager.__init__`. -/
def target_dirs (base : String) : List (String × String) :=
  [("active", base ++ "/active"), ("staging", base ++ "/staging"),
   ("archived", base ++ "/archive"), ("system", base ++ "/systems")]

/-- `ProjectLifecycleManager.move_project` (lines 337-379).  `raiseMove`
models `shutil.move` raising (missing source, permissions, ...); a raise is
caught, logged, and reported as failure *before* any registry update.  Only
on a successful move are `path`, `lifecycle_stage`, `moved_at` written and
the registry saved. -/
def move_project (st : MState) (project_id target_stage now : String)
    (raiseMove : Bool) : Bool × MState :=
  match List.lookup project_id st.registry with
  | none => (false, st)
  | some project_info =>
    let current_path := getField project_info "path"
    match List.lookup target_stage (target_dirs st.base) with
    | none => (false, st)
    | some target_dir =>
      let target_path := target_dir ++ "/" ++ project_id
      if target_path ∈ st.fs then (false, st)
      else if raiseMove ∨ current_path ∉ st.fs then (false, st)
      else
        let info' := setField (setField (setField project_info "path" target_path)
          "lifecycle_stage" target_stage) "moved_at" now
        (true,
          { st with fs := target_path :: st.fs.erase current_path,
                    registry := assocUpsert st.registry project_id info' })

/-! ## Claims -/

/-- C10: if `move_project` is called with a project id that is not in the
registry, or with a target stage outside {active, staging, archived,
system}, it returns failure and the state (registry and filesystem) is
completely unchanged. -/
theorem move_project_unknown_or_invalid_noop (st : MState)
    (project_id target_stage now : String) (raiseMove : Bool)
    (h : List.lookup project_id st.registry = none ∨
         target_stage ∉ ["active", "staging", "archived", "system"]) :
    move_project st project_id target_stage now raiseMove = (false, st) := by
  rcases h with h | h
  · simp [move_project, h]
  · have h1 : target_stage ≠ "active" := by intro he; exact h (by simp [he])
    have h2 : target_stage ≠ "staging" := by intro he; exact h (by simp [he])
    have h3 : target_stage ≠ "archived" := by intro he; exact h (by simp [he])
    have h4 : target_stage ≠ "system" := by intro he; exact h (by simp [he])
    have e1 : (target_stage == "active") = false := beq_eq_false_iff_ne.mpr h1
    have e2 : (target_stage == "staging") = false := beq_eq_false_iff_ne.mpr h2
    have e3 : (target_stage == "archived") = false := beq_eq_false_iff_ne.mpr h3
    have e4 : (target_stage == "system") = false := beq_eq_false_iff_ne.mpr h4
    have ht : List.lookup target_stage (target_dirs st.base) = none := by
      simp [target_dirs, List.lookup, e1, e2, e3, e4]
    cases hl : List.lookup project_id st.registry with
    | none => simp [move_project, hl]
    | some info => simp [move_project, hl, ht]

/-- C10 witness: moving an unregistered project out of a one-project state
fails and changes nothing. -/
theorem move_project_unknown_or_invalid_noop_witness :
    move_project ⟨"/b", [("p1", [("path", "/b/x/p1")])], ["/b/x/p1"]⟩
      "ghost" "archived" "t1" false =
      (false, ⟨"/b", [("p1", [("path", "/b/x/p1")])], ["/b/x/p1"]⟩) :=
  move_project_unknown_or_invalid_noop _ _ _ _ _ (Or.inl (by decide))

/-- C3: when applying a move fails — in particular because a directory with
the project's id already exists under the target stage root, or because the
filesystem move raises — the operation reports failure and the registry
(hence the project's record with every one of its fields) is unchanged. -/
theorem move_project_failure_preserves_registry (st : MState)
    (project_id target_stage now : String) (raiseMove : Bool)
    (h : (∃ target_dir,
            List.lookup target_stage (target_dirs st.base) = some target_dir ∧
            (target_dir ++ "/" ++ project_id) ∈ st.fs) ∨ raiseMove = true) :
    (move_project st project_id target_stage now raiseMove).1 = false ∧
    (move_project st project_id target_stage now raiseMove).2.registry = st.registry := by
  cases hl : List.lookup project_id st.registry with
  | none => simp [move_project, hl]
  | some info =>
    cases ht : List.lookup target_stage (target_dirs st.base) with
    | none => simp [move_project, hl, ht]
    | some target_dir =>
      by_cases hmem : (target_dir ++ "/" ++ project_id) ∈ st.fs
      · simp [move_project, hl, ht, hmem]
      · rcases h with ⟨td, htd, hmem'⟩ | hr
        · rw [ht] at htd
          injection htd with he
          subst he
          contradiction
        · subst hr
          simp [move_project, hl, ht, hmem]

/-- C3 witness: moving `p1` to `archived` when `/b/archive/p1` already
exists fails and leaves the registry untouched. -/
theorem move_project_failure_preserves_registry_witness :
    (move_project ⟨"/b", [("p1", [("path", "/b/active/p1")])],
        ["/b/active/p1", "/b/archive/p1"]⟩ "p1" "archived" "t1" false).1 = false ∧
    (move_project ⟨"/b", [("p1", [("path", "/b/active/p1")])],
        ["/b/active/p1", "/b/archive/p1"]⟩ "p1" "archived" "t1" false).2.registry =
      [("p1", [("path", "/b/active/p1")])] :=
  move_project_failure_preserves_registry _ _ _ _ _
    (Or.inl ⟨"/b/archive", by constructor <;> decide⟩)

/-- C7 counterexample: on a corrupt (unparsable) registry file,
`load_project_registry` does not self-heal to an empty registry — the
`json.load` exception propagates. -/
theorem load_project_registry_corrupt_raises :
    load_project_registry "t0" (some (Except.error ())) = Except.error () := rfl

/-- C7 amended: a *missing* registry file is treated as an empty registry
(the default document is built and, in the lifecycle manager, immediately
persisted via `save_project_registry`), but *corrupt* contents raise in both
loaders instead of being replaced by a fresh default. -/
theorem registry_load_missing_vs_corrupt :
    (∀ now, load_project_registry now none = Except.ok (default_registry now)) ∧
    (∀ now doc, load_project_registry now (some (Except.ok doc)) =
      Except.ok (save_project_registry now doc)) ∧
    (∀ now e, load_project_registry now (some (Except.error e)) = Except.error e) ∧
    (∀ now, ∃ doc, load_registry now none = Except.ok doc ∧ doc.projects = []) ∧
    (∀ now e, load_registry now (some (Except.error e)) = Except.error e) :=
  ⟨fun _ => rfl, fun _ _ => rfl, fun _ _ => rfl,
   fun _ => ⟨_, rfl, rfl⟩, fun _ _ => rfl⟩

/-- Number of strong ("key") markers present in a directory. -/
def strongCount (d : FDir) : Nat :=
  (key_indicators.filter (fun i => i ∈ d.entries)).length

/-- Number of weak (non-key) markers present in a directory. -/
def weakCount (d : FDir) : Nat :=
  (weak_indicators.filter (fun i => i ∈ d.entries)).length

/-- The C5 counterexample: a directory named like a dependency cache, with a
strong marker as immediate child. -/
def c5_node_modules : FDir :=
  { name := "node_modules", parentName := "active",
    path := "/b/active/node_modules", mtimeIso := "t", isDir := true,
    entries := ["package.json"] }

/-- C5 counterexample: the claim says any directory with at least one strong
marker qualifies "regardless of other markers present", but a directory
whose *name* is in the skip set (here `node_modules`, with the strong marker
`package.json` inside) is rejected before markers are counted. -/
theorem is_project_directory_skipdir_counterexample :
    "package.json" ∈ c5_node_modules.entries ∧
    "package.json" ∈ key_indicators ∧
    c5_node_modules.isDir = true ∧
    is_project_directory c5_node_modules = false := by decide

/-- C5 amended: for every existing directory whose name is *not* in the
fixed skip set, `is_project_directory` returns false exactly when the
directory has at most one weak marker and no strong marker; one strong
marker, or two distinct markers, qualify it. -/
theorem is_project_directory_qualification (d : FDir)
    (hdir : d.isDir = true) (hskip : d.name ∉ skip_dirs) :
    (is_project_directory d = false ↔ (weakCount d ≤ 1 ∧ strongCount d = 0)) ∧
    (1 ≤ strongCount d ∨ 2 ≤ strongCount d + weakCount d →
      is_project_directory d = true) := by
  have hsplit : (project_indicators.filter (fun i => decide (i ∈ d.entries))).length
      = strongCount d + weakCount d := by
    have hpi : project_indicators = key_indicators ++ weak_indicators := rfl
    rw [strongCount, weakCount, hpi, List.filter_append, List.length_append]
  have hkey : (key_indicators.any (fun i => decide (i ∈ d.entries)) = true)
      ↔ 1 ≤ strongCount d := by
    unfold strongCount
    rw [List.any_eq_true]
    constructor
    · rintro ⟨x, hx, hpx⟩
      have hmem : x ∈ key_indicators.filter (fun i => decide (i ∈ d.entries)) :=
        List.mem_filter.mpr ⟨hx, hpx⟩
      have hpos := List.length_pos.mpr (List.ne_nil_of_mem hmem)
      omega
    · intro hlen
      have hne : key_indicators.filter (fun i => decide (i ∈ d.entries)) ≠ [] := by
        intro hnil
        rw [hnil] at hlen
        simp at hlen
      rcases List.exists_mem_of_ne_nil _ hne with ⟨x, hx⟩
      exact ⟨x, (List.mem_filter.mp hx).1, (List.mem_filter.mp hx).2⟩
  have hval : is_project_directory d =
      (decide (2 ≤ strongCount d + weakCount d) ||
        key_indicators.any (fun i => decide (i ∈ d.entries))) := by
    rw [is_project_directory]
    rw [if_neg (by simp [hdir]), if_neg hskip, hsplit]
  constructor
  · constructor
    · intro h0
      rw [hval] at h0
      rcases Bool.or_eq_false_iff.mp h0 with ⟨ha, hb⟩
      have hn : ¬ (2 ≤ strongCount d + weakCount d) := by simpa using ha
      have hs : ¬ (1 ≤ strongCount d) := fun hc => by
        rw [hkey.mpr hc] at hb
        exact Bool.true_eq_false.mp hb
      omega
    · rintro ⟨hw, hs⟩
      rw [hval]
      apply Bool.or_eq_false_iff.mpr
      refine ⟨by simp; omega, ?_⟩
      apply Bool.eq_false_iff.mpr
      intro hc
      have := hkey.mp hc
      omega
  · intro h
    rw [hval]
    rcases Nat.lt_or_ge (strongCount d) 1 with hs | hs
    · have h2 : 2 ≤ strongCount d + weakCount d := by omega
      simp [h2]
    · rw [hkey.mpr hs]
      simp

/-- C5 amended witness: a plain directory with only a README is rejected,
per the amended characterization. -/
theorem is_project_directory_qualification_witness :
    is_project_directory ⟨"docs", "base", "/b/docs", "t", true, ["README.md"]⟩ = false :=
  (is_project_directory_qualification _ (by decide) (by decide)).1.mpr (by decide)

/-- The C1 counterexample directory contents: both the project-context
marker and the Node.js manifest at top level. -/
def c1_entries : List Entry :=
  [⟨"/p/CLAUDE.md", "CLAUDE.md", ".md", true, true, 0, 100⟩,
   ⟨"/p/package.json", "package.json", ".json", true, true, 0, 100⟩]

/-- C1 counterexample: `classify_project_type` (lifecycle manager) checks
the dependency manifests *before* the project-context markers, so a
directory with both CLAUDE.md and package.json classifies as "development",
not "claude-project" — the priority cascade is not the same in every code
path that assigns a project type. -/
theorem classify_project_type_manifest_over_claude :
    "claude.md" ∈ lc_file_names c1_entries ∧
    "package.json" ∈ lc_file_names c1_entries ∧
    classify_project_type c1_entries = "development" ∧
    classify_project_type c1_entries ≠ "claude-project" := by decide

/-- C1 amended: in the discovery service's `analyze_project_quick` the
project-context marker is checked first, so a directory containing both
CLAUDE.md and package.json classifies as `claude-project` and never as
`development-nodejs`; in the lifecycle manager's `classify_project_type`
the manifest check precedes the project-context check, so there such a
directory classifies as `development` (that path can never produce
`development-nodejs` for any input at all). -/
theorem type_priority_per_code_path :
    (∀ now d, "CLAUDE.md" ∈ d.entries →
      (analyze_project_quick now d).type = "claude-project") ∧
    (∀ es, "package.json" ∈ lc_file_names es →
      classify_project_type es = "development") ∧
    (∀ es, classify_project_type es ≠ "development-nodejs") := by
  refine ⟨?_, ?_, ?_⟩
  · intro now d h
    simp [analyze_project_quick, h]
  · intro es h
    have hany : (["package.json", "requirements.txt", "cargo.toml", "go.mod"].any
        (fun n => decide (n ∈ lc_file_names es))) = true :=
      List.any_eq_true.mpr ⟨"package.json", by simp, by simpa using h⟩
    simp only [classify_project_type]
    rw [if_pos (by simpa using hany)]
  · intro es
    simp only [classify_project_type]
    split
    · decide
    split
    · decide
    split
    · decide
    split
    · decide
    split
    · decide
    split
    · decide
    split
    · decide
    · decide

/-- C1 amended witness: a concrete directory with both markers,
evaluated through both code paths. -/
theorem type_priority_per_code_path_witness :
    (analyze_project_quick "t0"
      ⟨"proj", "active", "/b/active/proj", "t", true,
        ["CLAUDE.md", "package.json"]⟩).type = "claude-project" ∧
    classify_project_type c1_entries = "development" :=
  ⟨type_priority_per_code_path.1 "t0" _ (by decide),
   type_priority_per_code_path.2.1 c1_entries (by decide)⟩

/-- Number of regular-file entries in a recursive walk. -/
def fileCount (es : List Entry) : Nat :=
  (es.filter (fun e => e.isFile)).length

theorem dayWeight_bounds (days_ago : Int) :
    0 ≤ dayWeight days_ago ∧ dayWeight days_ago ≤ 10 := by
  unfold dayWeight
  split_ifs <;> norm_num

theorem activityLoop_ok_bounds :
    ∀ (es : List Entry) (t : ℚ) (c : Nat) (t' : ℚ) (c' : Nat),
      activityLoop es t c = Except.ok (t', c') →
      t ≤ t' ∧ t' ≤ t + 10 * ((c' : ℚ) - (c : ℚ)) ∧ c ≤ c'
  | [], t, c, t', c', h => by
    rw [activityLoop] at h
    injection h with h
    injection h with h1 h2
    subst h1
    subst h2
    simp
  | e :: rest, t, c, t', c', h => by
    rw [activityLoop] at h
    by_cases hf : e.isFile = true
    · rw [if_pos hf] at h
      by_cases hs : e.statOk = true
      · rw [if_pos hs] at h
        obtain ⟨ih1, ih2, ih3⟩ :=
          activityLoop_ok_bounds rest (t + dayWeight e.daysAgo) (c + 1) t' c' h
        obtain ⟨hw0, hw10⟩ := dayWeight_bounds e.daysAgo
        refine ⟨by linarith, ?_, by omega⟩
        have hcast : ((c + 1 : Nat) : ℚ) = (c : ℚ) + 1 := by push_cast; ring
        rw [hcast] at ih2
        linarith
      · rw [if_neg hs] at h
        exact absurd h (by simp)
    · rw [if_neg hf] at h
      obtain ⟨ih1, ih2, ih3⟩ := activityLoop_ok_bounds rest t c t' c' h
      exact ⟨ih1, ih2, ih3⟩

theorem activityLoop_all_today :
    ∀ (es : List Entry) (t : ℚ) (c : Nat),
      (∀ e ∈ es, e.isFile = true → e.statOk = true ∧ e.daysAgo = 0) →
      activityLoop es t c = Except.ok (t + 10 * (fileCount es : ℚ), c + fileCount es)
  | [], t, c, _ => by
    simp [activityLoop, fileCount]
  | e :: rest, t, c, hall => by
    have hrest : ∀ x ∈ rest, x.isFile = true → x.statOk = true ∧ x.daysAgo = 0 :=
      fun x hx => hall x (List.mem_cons_of_mem _ hx)
    rw [activityLoop]
    by_cases hf : e.isFile = true
    · obtain ⟨hs, hd⟩ := hall e (List.mem_cons_self _ _) hf
      rw [if_pos hf, if_pos hs, activityLoop_all_today rest _ _ hrest]
      have hw : dayWeight e.daysAgo = 10 := by rw [hd]; rfl
      have hfc : fileCount (e :: rest) = fileCount rest + 1 := by
        simp [fileCount, hf]
      have hq : t + 10 + 10 * ((fileCount rest : Nat) : ℚ)
          = t + 10 * (((fileCount rest + 1 : Nat)) : ℚ) := by push_cast; ring
      have hn : c + 1 + fileCount rest = c + (fileCount rest + 1) := by omega
      rw [hw, hfc, hq, hn]
    · rw [if_neg hf, activityLoop_all_today rest _ _ hrest]
      have hfc : fileCount (e :: rest) = fileCount rest := by
        simp [fileCount, hf]
      rw [hfc]

theorem activityLoop_no_files :
    ∀ (es : List Entry) (t : ℚ) (c : Nat),
      (∀ e ∈ es, e.isFile = false) →
      activityLoop es t c = Except.ok (t, c)
  | [], _, _, _ => by rw [activityLoop]
  | e :: rest, t, c, hall => by
    rw [activityLoop, if_neg (by simp [hall e (List.mem_cons_self _ _)])]
    exact activityLoop_no_files rest t c (fun x hx => hall x (List.mem_cons_of_mem _ hx))

/-- C4: the computed activity score always lies in [0, 10]; a directory
whose files (at least one) were all modified the same day scores exactly 10;
a directory with no files yields the defined score 0 (the divisor is clamped
to 1) instead of a division error. -/
theorem activity_score_bounds :
    (∀ es q, calculate_activity_score es = Except.ok q → 0 ≤ q ∧ q ≤ 10) ∧
    (∀ es, (∃ e ∈ es, e.isFile = true) →
      (∀ e ∈ es, e.isFile = true → e.statOk = true ∧ e.daysAgo = 0) →
      calculate_activity_score es = Except.ok 10) ∧
    (∀ es, (∀ e ∈ es, e.isFile = false) →
      calculate_activity_score es = Except.ok 0) := by
  refine ⟨?_, ?_, ?_⟩
  · intro es q hq
    rw [calculate_activity_score] at hq
    cases hloop : activityLoop es 0 0 with
    | error e => rw [hloop] at hq; exact absurd hq (by simp [Except.map])
    | ok tc =>
      rw [hloop] at hq
      simp only [Except.map] at hq
      injection hq with hq
      obtain ⟨h1, h2, _⟩ := activityLoop_ok_bounds es 0 0 tc.1 tc.2 (by rw [hloop])
      subst hq
      have hden : (0 : ℚ) < ((max tc.2 1 : Nat) : ℚ) := by
        have : 1 ≤ max tc.2 1 := le_max_right _ _
        exact_mod_cast Nat.lt_of_lt_of_le Nat.zero_lt_one this
      constructor
      · exact div_nonneg (by linarith) (le_of_lt hden)
      · rw [div_le_iff₀ hden]
        have hle : (tc.2 : ℚ) ≤ ((max tc.2 1 : Nat) : ℚ) := by
          exact_mod_cast le_max_left _ _
        nlinarith
  · intro es ⟨e, he, hef⟩ hall
    rw [calculate_activity_score,
      activityLoop_all_today es 0 0 hall]
    have hfc : 1 ≤ fileCount es := by
      have : e ∈ es.filter (fun x => x.isFile) := List.mem_filter.mpr ⟨he, hef⟩
      have := List.length_pos.mpr (List.ne_nil_of_mem this)
      rw [fileCount]
      omega
    have hmax : max (0 + fileCount es) 1 = fileCount es := by omega
    simp only [Except.map, hmax]
    congr 1
    have hne : ((fileCount es : Nat) : ℚ) ≠ 0 := Nat.cast_ne_zero.mpr (by omega)
    rw [zero_add, mul_div_assoc, div_self hne, mul_one]
  · intro es hall
    rw [calculate_activity_score, activityLoop_no_files es 0 0 hall]
    simp [Except.map]

/-- C4 witness: a one-file directory touched today scores 10; an empty
directory scores 0; both values are within the proved bounds. -/
theorem activity_score_bounds_witness :
    calculate_activity_score [⟨"/p/a.py", "a.py", ".py", true, true, 0, 5⟩] =
      Except.ok 10 ∧
    calculate_activity_score [] = Except.ok 0 ∧
    (0 : ℚ) ≤ 10 ∧ (10 : ℚ) ≤ 10 := by
  refine ⟨activity_score_bounds.2.1 _ ⟨_, List.mem_singleton_self _, rfl⟩ ?_,
    activity_score_bounds.2.2 [] ?_, ?_⟩
  · intro e he _
    rw [List.mem_singleton] at he
    subst he
    exact ⟨rfl, rfl⟩
  · intro e he
    exact absurd he (List.not_mem_nil e)
  · exact (activity_score_bounds.1 [] 0
      (activity_score_bounds.2.2 [] (fun e he => absurd he (List.not_mem_nil e)))).imp
      (fun h => by norm_num) (fun h => by norm_num)

/-- The C9 counterexample directory: one file whose `stat()` raises. -/
def c9_dir : PDir :=
  { name := "proj9", parentName := "base", path := "/b/proj9", mtimeIso := "t",
    isDir := true,
    entries := [⟨"/b/proj9/bad.txt", "bad.txt", ".txt", true, false, 0, 5⟩],
    claudeMd := none, packageJson := none }

/-- C9 counterexample: an error reading a single file is *not* caught at
per-file granularity everywhere — `calculate_activity_score` has no handler
at all, so one unreadable file aborts the classification of the whole
directory (`analyze_project` raises). -/
theorem analyze_project_raises_on_unreadable_file :
    analyze_project "t0" c9_dir = Except.error () := rfl

theorem activityLoop_error_iff :
    ∀ (es : List Entry) (t : ℚ) (c : Nat),
      activityLoop es t c = Except.error () ↔
        ∃ e ∈ es, e.isFile = true ∧ e.statOk = false
  | [], t, c => by simp [activityLoop]
  | e :: rest, t, c => by
    rw [activityLoop]
    by_cases hf : e.isFile = true
    · by_cases hs : e.statOk = true
      · rw [if_pos hf, if_pos hs, activityLoop_error_iff rest _ _]
        constructor
        · rintro ⟨x, hx, hxx⟩
          exact ⟨x, List.mem_cons_of_mem _ hx, hxx⟩
        · rintro ⟨x, hx, hx1, hx2⟩
          rcases List.mem_cons.mp hx with he | hxr
          · subst he
            rw [hs] at hx2
            exact absurd hx2 (by simp)
          · exact ⟨x, hxr, hx1, hx2⟩
      · rw [if_pos hf, if_neg hs]
        constructor
        · intro _
          exact ⟨e, List.mem_cons_self _ _, hf, Bool.not_eq_true _ ▸ Bool.of_not_eq_true hs⟩
        · intro _
          rfl
    · rw [if_neg hf, activityLoop_error_iff rest _ _]
      constructor
      · rintro ⟨x, hx, hxx⟩
        exact ⟨x, List.mem_cons_of_mem _ hx, hxx⟩
      · rintro ⟨x, hx, hx1, hx2⟩
        rcases List.mem_cons.mp hx with he | hxr
        · subst he
          exact absurd hx1 hf
        · exact ⟨x, hxr, hx1, hx2⟩

theorem sizeLoop_stops_at_bad_stat (bad : Entry) (ys : List Entry)
    (hbf : bad.isFile = true) (hbs : bad.statOk = false) :
    ∀ (xs : List Entry) (acc : Nat),
      (∀ e ∈ xs, e.isFile = true → e.statOk = true) →
      sizeLoop (xs ++ bad :: ys) acc = sizeLoop xs acc
  | [], acc, _ => by
    simp only [List.nil_append, sizeLoop]
    rw [if_pos hbf, if_neg (by simp [hbs])]
  | x :: xs, acc, hall => by
    have hxs : ∀ e ∈ xs, e.isFile = true → e.statOk = true :=
      fun e he => hall e (List.mem_cons_of_mem _ he)
    simp only [List.cons_append, sizeLoop]
    by_cases hf : x.isFile = true
    · have hs := hall x (List.mem_cons_self _ _) hf
      simp only [hf, hs, if_true]
      exact sizeLoop_stops_at_bad_stat bad ys hbf hbs xs (acc + x.size) hxs
    · simp only [if_neg hf]
      exact sizeLoop_stops_at_bad_stat bad ys hbf hbs xs acc hxs

/-- C9 amended: errors reading an individual file are *not* handled
per-file.  The activity-score walk has no handler: it raises exactly when
some file's stat fails.  The size walk has a single handler around the whole
loop: it never raises, but it stops at the first failing file and the
remaining files are skipped (not "continued to completion"). -/
theorem per_file_error_granularity :
    (∀ es, calculate_activity_score es = Except.error () ↔
      ∃ e ∈ es, e.isFile = true ∧ e.statOk = false) ∧
    (∀ xs (bad : Entry) ys,
      (∀ e ∈ xs, e.isFile = true → e.statOk = true) →
      bad.isFile = true → bad.statOk = false →
      get_directory_size (xs ++ bad :: ys) = get_directory_size xs) := by
  constructor
  · intro es
    rw [calculate_activity_score]
    cases hloop : activityLoop es 0 0 with
    | error e =>
      cases e
      simp only [Except.map]
      rw [← activityLoop_error_iff es 0 0, hloop]
      simp
    | ok tc =>
      simp only [Except.map]
      rw [← activityLoop_error_iff es 0 0, hloop]
      simp
  · intro xs bad ys hall hbf hbs
    rw [get_directory_size, get_directory_size,
      sizeLoop_stops_at_bad_stat bad ys hbf hbs xs 0 hall]

/-- C9 amended witness: a concrete three-file walk in which the middle
file's stat fails — the activity score raises, and the size walk returns the
size of the leading files only. -/
theorem per_file_error_granularity_witness :
    calculate_activity_score
      [⟨"/p/bad.txt", "bad.txt", ".txt", true, false, 0, 5⟩] = Except.error () ∧
    get_directory_size
      [⟨"/p/a.txt", "a.txt", ".txt", true, true, 0, 1048576⟩,
       ⟨"/p/bad.txt", "bad.txt", ".txt", true, false, 0, 1048576⟩,
       ⟨"/p/z.txt", "z.txt", ".txt", true, true, 0, 1048576⟩] =
    get_directory_size [⟨"/p/a.txt", "a.txt", ".txt", true, true, 0, 1048576⟩] := by
  constructor
  · exact (per_file_error_granularity.1 _).mpr
      ⟨_, List.mem_singleton_self _, rfl, rfl⟩
  · exact per_file_error_granularity.2
      [⟨"/p/a.txt", "a.txt", ".txt", true, true, 0, 1048576⟩] _ _
      (by intro e he _; rw [List.mem_singleton] at he; subst he; rfl) rfl rfl

theorem mem_ite_singleton {α : Type} {c : Prop} [Decidable c] {x s : α}
    (h : s ∈ (if c then [x] else [])) : s = x := by
  split at h
  · rwa [List.mem_singleton] at h
  · exact absurd h (List.not_mem_nil s)

/-- Every suggestion emitted for a registry entry carries that entry's id. -/
theorem suggestions_for_project (a : Int) (f : String → Bool) (pid : String)
    (p : SRecord) : ∀ s ∈ suggestions_for a f pid p, s.project = pid := by
  intro s hs
  simp only [suggestions_for] at hs
  by_cases h0 : f p.path = false
  · rw [if_pos h0, List.mem_singleton] at hs
    subst hs
    rfl
  · rw [if_neg h0] at hs
    rcases List.mem_append.mp hs with hs' | hs3
    · rcases List.mem_append.mp hs' with hs1 | hs2
      · rw [mem_ite_singleton hs1]
      · rw [mem_ite_singleton hs2]
    · rw [mem_ite_singleton hs3]

/-- An entry whose path is gone from disk contributes exactly the single
high-priority removal suggestion. -/
theorem suggestions_for_stale (a : Int) (f : String → Bool) (pid : String)
    (p : SRecord) (hex : f p.path = false) :
    suggestions_for a f pid p =
      [{ action := "remove_registry_entry", project := pid,
         reason := "Project directory no longer exists", priority := "high" }] := by
  simp [suggestions_for, hex]

theorem suggest_filter_not_mem (a : Int) (f : String → Bool) (pid : String) :
    ∀ (l : List (String × SRecord)), pid ∉ l.map Prod.fst →
      (suggest_lifecycle_actions a f l).filter (fun s => s.project = pid) = []
  | [], _ => rfl
  | (hid, hp) :: tl, h => by
    rw [suggest_lifecycle_actions, List.filter_append]
    have hne : hid ≠ pid := by
      intro he
      subst he
      exact h (by rw [List.map_cons]; exact List.mem_cons_self _ _)
    have h1 : (suggestions_for a f hid hp).filter (fun s => s.project = pid) = [] := by
      rw [List.filter_eq_nil_iff]
      intro s hs
      rw [suggestions_for_project a f hid hp s hs]
      simp [hne]
    rw [h1, List.nil_append,
      suggest_filter_not_mem a f pid tl
        (fun hm => h (by rw [List.map_cons]; exact List.mem_cons_of_mem _ hm))]

/-- C8: for a registry entry whose stored path no longer exists on disk, the
suggestion generator produces exactly one suggestion bearing that id — a
high-priority `remove_registry_entry` — and no move / auto-archive /
review-cleanup suggestion for that entry (ids are unique in the registry
dict). -/
theorem stale_entry_single_suggestion (a : Int) (f : String → Bool)
    (projects : List (String × SRecord)) (pid : String) (p : SRecord)
    (hmem : (pid, p) ∈ projects) (hnodup : (projects.map Prod.fst).Nodup)
    (hex : f p.path = false) :
    (suggest_lifecycle_actions a f projects).filter (fun s => s.project = pid)
      = [{ action := "remove_registry_entry", project := pid,
           reason := "Project directory no longer exists", priority := "high" }] := by
  induction projects with
  | nil => exact absurd hmem (List.not_mem_nil _)
  | cons hd tl ih =>
    obtain ⟨hid, hp⟩ := hd
    rw [suggest_lifecycle_actions, List.filter_append]
    rw [List.map_cons, List.nodup_cons] at hnodup
    rcases List.mem_cons.mp hmem with heq | hmem'
    · injection heq with h1 h2
      subst h1
      subst h2
      rw [suggestions_for_stale a f pid p hex]
      have hrest : (suggest_lifecycle_actions a f tl).filter
          (fun s => s.project = pid) = [] :=
        suggest_filter_not_mem a f pid tl hnodup.1
      rw [hrest]
      simp [List.filter]
    · have hne : hid ≠ pid := by
        intro he
        subst he
        exact hnodup.1 (List.mem_map.mpr ⟨(hid, p), hmem', rfl⟩)
      have hhead : (suggestions_for a f hid hp).filter
          (fun s => s.project = pid) = [] := by
        rw [List.filter_eq_nil_iff]
        intro s hs
        rw [suggestions_for_project a f hid hp s hs]
        simp [hne]
      rw [hhead, List.nil_append]
      exact ih hmem' hnodup.2

/-- The C8 witness registry entries. -/
def c8_gone : SRecord := ⟨"/b/archive/gone", "archived", some 0, 400, 1⟩

/-- Companion entry of the C8 witness whose path still exists. -/
def c8_keep : SRecord := ⟨"/b/active/keep", "active", some 7, 1, 1⟩

/-- C8 witness: a two-entry registry in which `gone`'s path was deleted —
filtering the suggestions to that id yields exactly the removal action. -/
theorem stale_entry_single_suggestion_witness :
    (suggest_lifecycle_actions 30 (fun path => path = "/b/active/keep")
      [("gone", c8_gone), ("keep", c8_keep)]).filter
        (fun s => s.project = "gone")
      = [{ action := "remove_registry_entry", project := "gone",
           reason := "Project directory no longer exists", priority := "high" }] :=
  stale_entry_single_suggestion 30 (fun path => path = "/b/active/keep")
    [("gone", c8_gone), ("keep", c8_keep)] "gone" c8_gone
    (List.mem_cons_self _ _) (by decide) (by decide)

/-- Membership after a Python-dict assignment: the element was already
present, or it is the inserted binding. -/
theorem mem_assocUpsert {β : Type} (reg : List (String × β)) (id : String)
    (r : β) (pr : String × β) (h : pr ∈ assocUpsert reg id r) :
    pr ∈ reg ∨ pr = (id, r) := by
  rw [assocUpsert] at h
  split at h
  · rcases List.mem_map.mp h with ⟨p, hp, he⟩
    by_cases hpid : p.1 = id
    · rw [if_pos hpid] at he
      exact Or.inr he.symm
    · rw [if_neg hpid] at he
      exact Or.inl (he ▸ hp)
  · rcases List.mem_append.mp h with hl | hr
    · exact Or.inl hl
    · exact Or.inr (List.mem_singleton.mp hr)

/-- The single (old, readable) file of the C6 counterexample directory. -/
def c6_entry : Entry := ⟨"/b/misc-notes/old.txt", "old.txt", ".txt", true, true, 200, 100⟩

/-- The C6 counterexample directory: lives directly under the base directory
(its parent is not a lifecycle root), touched 200 days ago. -/
def c6_dir : PDir :=
  { name := "misc-notes", parentName := "b", path := "/b/misc-notes",
    mtimeIso := "t", isDir := true, entries := [c6_entry],
    claudeMd := none, packageJson := none }

theorem calculate_activity_score_c6 :
    calculate_activity_score [c6_entry] = Except.ok 0 := by
  have h1 : calculate_activity_score [c6_entry] =
      Except.ok ((0 + dayWeight 200) / ((max 1 1 : Nat) : ℚ)) := rfl
  rw [h1]
  norm_num [dayWeight]

theorem determine_lifecycle_stage_c6 :
    determine_lifecycle_stage c6_dir = Except.ok "should_be_archived" := by
  rw [determine_lifecycle_stage]
  rw [if_neg (by decide), if_neg (by decide), if_neg (by decide), if_neg (by decide)]
  have he : c6_dir.entries = [c6_entry] := rfl
  rw [he, calculate_activity_score_c6]
  simp only [Except.map]
  norm_num

theorem analyze_project_c6 :
    analyze_project "t0" c6_dir = Except.ok
      { id := "misc-notes", name := "misc-notes", path := "/b/misc-notes",
        discovered_at := "t0", last_modified := "t",
        size_mb := get_directory_size [c6_entry], file_count := 1,
        type := classify_project_type [c6_entry], activity_score := 0,
        lifecycle_stage := "should_be_archived",
        meta := ⟨none, none, none⟩ } := by
  have he : c6_dir.entries = [c6_entry] := rfl
  simp only [analyze_project, he, calculate_activity_score_c6,
    determine_lifecycle_stage_c6, Except.bind, bind]
  rfl

/-- C6 counterexample: running plain discovery (no move operation) on a
directory outside the lifecycle roots persists the transitional
recommendation `should_be_archived` as the registry record's final
`lifecycle_stage`. -/
theorem discover_projects_persists_should_be :
    (discover_projects "t0" [c6_dir] []).map
        (fun out => (List.lookup "misc-notes" out.2).map
          (fun r => r.lifecycle_stage)) =
      Except.ok (some "should_be_archived") := by
  rw [discover_projects]
  rw [if_pos (by refine ⟨rfl, by decide, by decide⟩)]
  simp only [analyze_project_c6, Except.bind, bind, discover_projects]
  rfl

/-- Every binding `discover_projects` adds or overwrites comes straight from
`analyze_project` on a scanned directory; pre-existing bindings survive
untouched. -/
theorem discover_projects_written_from_analyze (now : String) :
    ∀ (fs : List PDir) (reg : List (String × LRecord)) out,
      discover_projects now fs reg = Except.ok out →
      ∀ pr ∈ out.2, pr ∈ reg ∨
        ∃ d ∈ fs, pr.1 = d.name ∧ analyze_project now d = Except.ok pr.2
  | [], reg, out, h => by
    rw [discover_projects] at h
    injection h with h
    subst h
    intro pr hpr
    exact Or.inl hpr
  | d :: rest, reg, out, h => by
    rw [discover_projects] at h
    split at h
    · cases ha : analyze_project now d with
      | error e =>
        rw [ha] at h
        exact absurd h (by simp [Except.bind, bind])
      | ok info =>
        rw [ha] at h
        simp only [Except.bind, bind] at h
        cases hr : discover_projects now rest (assocUpsert reg d.name info) with
        | error e =>
          rw [hr] at h
          exact absurd h (by simp)
        | ok r =>
          rw [hr] at h
          injection h with h
          subst h
          intro pr hpr
          rcases discover_projects_written_from_analyze now rest _ r hr pr hpr with
            hin | ⟨d', hd', h1, h2⟩
          · rcases mem_assocUpsert reg d.name info pr hin with hl | he
            · exact Or.inl hl
            · subst he
              exact Or.inr ⟨d, List.mem_cons_self _ _, rfl, ha⟩
          · exact Or.inr ⟨d', List.mem_cons_of_mem _ hd', h1, h2⟩
    · intro pr hpr
      rcases discover_projects_written_from_analyze now rest reg out h pr hpr with
        hin | ⟨d', hd', h1, h2⟩
      · exact Or.inl hin
      · exact Or.inr ⟨d', List.mem_cons_of_mem _ hd', h1, h2⟩

/-- C6 amended: `determine_lifecycle_stage` yields the parent-derived
confirmed stage under a lifecycle root and a `should_be_*` recommendation
otherwise; `analyze_project` stores that value verbatim as the record's
`lifecycle_stage`; and `discover_projects` persists `analyze_project`
records as-is — so transitional `should_be_*` values *are* written to the
registry as `lifecycle_stage` for projects outside the lifecycle roots,
without any move operation. -/
theorem lifecycle_stage_persistence :
    (∀ d st, d.parentName ∉ ["active", "staging", "archive", "systems"] →
      determine_lifecycle_stage d = Except.ok st →
      st = "should_be_active" ∨ st = "should_be_staging" ∨ st = "should_be_archived") ∧
    (∀ d : PDir, d.parentName = "active" →
      determine_lifecycle_stage d = Except.ok "active") ∧
    (∀ d : PDir, d.parentName = "staging" →
      determine_lifecycle_stage d = Except.ok "staging") ∧
    (∀ d : PDir, d.parentName = "archive" →
      determine_lifecycle_stage d = Except.ok "archived") ∧
    (∀ d : PDir, d.parentName = "systems" →
      determine_lifecycle_stage d = Except.ok "system") ∧
    (∀ now d rec, analyze_project now d = Except.ok rec →
      determine_lifecycle_stage d = Except.ok rec.lifecycle_stage) ∧
    (∀ now fs reg out, discover_projects now fs reg = Except.ok out →
      ∀ pr ∈ out.2, pr ∈ reg ∨
        ∃ d ∈ fs, pr.1 = d.name ∧ analyze_project now d = Except.ok pr.2) := by
  refine ⟨?_, ?_, ?_, ?_, ?_, ?_, ?_⟩
  · intro d st hmem hok
    have h1 : d.parentName ≠ "active" := fun he => hmem (by simp [he])
    have h2 : d.parentName ≠ "staging" := fun he => hmem (by simp [he])
    have h3 : d.parentName ≠ "archive" := fun he => hmem (by simp [he])
    have h4 : d.parentName ≠ "systems" := fun he => hmem (by simp [he])
    rw [determine_lifecycle_stage, if_neg h1, if_neg h2, if_neg h3, if_neg h4] at hok
    cases hc : calculate_activity_score d.entries with
    | error e =>
      rw [hc] at hok
      exact absurd hok (by simp [Except.map])
    | ok q =>
      rw [hc] at hok
      simp only [Except.map] at hok
      injection hok with hok
      subst hok
      split_ifs <;> simp
  · intro d h
    rw [determine_lifecycle_stage, h]
    rfl
  · intro d h
    rw [determine_lifecycle_stage, h]
    rfl
  · intro d h
    rw [determine_lifecycle_stage, h]
    rfl
  · intro d h
    rw [determine_lifecycle_stage, h]
    rfl
  · intro now d rec h
    rw [analyze_project] at h
    cases hc : calculate_activity_score d.entries with
    | error e =>
      rw [hc] at h
      exact absurd h (by simp [Except.bind, bind])
    | ok q =>
      rw [hc] at h
      cases hd : determine_lifecycle_stage d with
      | error e =>
        rw [hd] at h
        exact absurd h (by simp [Except.bind, bind])
      | ok st =>
        rw [hd] at h
        simp only [Except.bind, bind] at h
        injection h with h
        subst h
        rfl
  · exact fun now fs reg out h =>
      discover_projects_written_from_analyze now fs reg out h

/-- C6 amended witness: the recommendation characterization applied to the
concrete counterexample directory, and the confirmed-stage rule applied to a
directory directly under `active`. -/
theorem lifecycle_stage_persistence_witness :
    ("should_be_archived" = "should_be_active" ∨
      "should_be_archived" = "should_be_staging" ∨
      "should_be_archived" = "should_be_archived") ∧
    determine_lifecycle_stage
      ⟨"p", "active", "/b/active/p", "t", true, [], none, none⟩ =
      Except.ok "active" :=
  ⟨lifecycle_stage_persistence.1 c6_dir "should_be_archived" (by decide)
      determine_lifecycle_stage_c6,
   lifecycle_stage_persistence.2.1 _ rfl⟩

/-- A directory that qualifies as a project is in particular a directory. -/
theorem is_project_directory_isDir (d : FDir)
    (h : is_project_directory d = true) : d.isDir = true := by
  by_contra hnd
  rw [is_project_directory, if_pos (by simpa using hnd)] at h
  exact absurd h (by simp)

/-- `check_new_project` never forgets a known id. -/
theorem check_new_project_known_mono (tmpl : FDir → FDir) (now : String)
    (s : DState) (d : FDir) (x : String) (hx : x ∈ s.known) :
    x ∈ (check_new_project tmpl now s d).2.2.known := by
  simp only [check_new_project]
  split_ifs <;>
    first
    | exact hx
    | exact List.mem_cons_of_mem _ hx

/-- After `check_new_project`, if the (possibly templated) directory it
leaves behind qualifies as a project, its id is known. -/
theorem check_new_project_head_known (tmpl : FDir → FDir) (now : String)
    (s : DState) (d : FDir) (hname : (tmpl d).name = d.name)
    (hd' : is_project_directory (check_new_project tmpl now s d).2.1 = true) :
    (check_new_project tmpl now s d).2.1.name ∈
      (check_new_project tmpl now s d).2.2.known := by
  simp only [check_new_project] at hd' ⊢
  by_cases h1 : d.isDir = true ∧ d.parentName ∈ ["active", "staging", "archive"] ∧
      d.name ∉ s.known
  · rw [if_pos h1] at hd' ⊢
    by_cases h2 : is_project_directory (tmpl d) = true
    · rw [if_pos h2]
      dsimp only
      simp only [registerProject]
      rw [hname]
      exact List.mem_cons_self _ _
    · rw [if_neg h2] at hd'
      dsimp only at hd'
      exact absurd hd' h2
  · rw [if_neg h1] at hd' ⊢
    by_cases h3 : is_project_directory d = true
    · rw [if_neg (by simpa using h3)] at hd' ⊢
      by_cases h4 : d.name ∈ s.known
      · rw [if_pos h4]
        exact h4
      · rw [if_neg h4]
        dsimp only
        simp only [registerProject]
        exact List.mem_cons_self _ _
    · rw [if_pos (by simpa using h3)] at hd'
      dsimp only at hd'
      exact absurd hd' h3

/-- `check_new_project` on an already-known project directory is a no-op. -/
theorem check_new_project_known_noop (tmpl : FDir → FDir) (now : String)
    (s : DState) (d : FDir) (hproj : is_project_directory d = true)
    (hk : d.name ∈ s.known) :
    check_new_project tmpl now s d = (false, d, s) := by
  simp only [check_new_project]
  rw [if_neg (fun hc => hc.2.2 hk)]
  rw [if_neg (by simpa using hproj), if_pos hk]

/-- A full scan never forgets a known id. -/
theorem discover_all_known_mono (tmpl : FDir → FDir) (now : String) :
    ∀ (fs : List FDir) (s : DState) (x : String), x ∈ s.known →
      x ∈ (discover_all_projects tmpl now fs s).2.2.known
  | [], _, _, hx => hx
  | d :: rest, s, x, hx => by
    simp only [discover_all_projects]
    by_cases hc : d.isDir = true ∧ is_project_directory d = true
    · rw [if_pos hc]
      dsimp only
      exact discover_all_known_mono tmpl now rest _ x
        (check_new_project_known_mono tmpl now s d x hx)
    · rw [if_neg hc]
      dsimp only
      exact discover_all_known_mono tmpl now rest s x hx

/-- After a full scan, every directory it leaves behind that qualifies as a
project has a known id (templates never rename a directory). -/
theorem discover_all_invariant (tmpl : FDir → FDir) (now : String)
    (hname : ∀ d, (tmpl d).name = d.name) :
    ∀ (fs : List FDir) (s : DState) (d' : FDir),
      d' ∈ (discover_all_projects tmpl now fs s).2.1 →
      is_project_directory d' = true →
      d'.name ∈ (discover_all_projects tmpl now fs s).2.2.known
  | [], s, d', hmem, _ => by
    exact absurd hmem (List.not_mem_nil _)
  | d :: rest, s, d', hmem, hproj => by
    simp only [discover_all_projects] at hmem ⊢
    by_cases hc : d.isDir = true ∧ is_project_directory d = true
    · rw [if_pos hc] at hmem ⊢
      dsimp only at hmem ⊢
      rcases List.mem_cons.mp hmem with he | hm
      · subst he
        exact discover_all_known_mono tmpl now rest _ _
          (check_new_project_head_known tmpl now s d (hname d) hproj)
      · exact discover_all_invariant tmpl now hname rest _ d' hm hproj
    · rw [if_neg hc] at hmem ⊢
      dsimp only at hmem ⊢
      rcases List.mem_cons.mp hmem with he | hm
      · subst he
        exact absurd ⟨is_project_directory_isDir d' hproj, hproj⟩ hc
      · exact discover_all_invariant tmpl now hname rest s d' hm hproj

/-- A full scan in which every project directory is already known registers
nothing and changes nothing. -/
theorem discover_all_noop (tmpl : FDir → FDir) (now : String) :
    ∀ (fs : List FDir) (s : DState),
      (∀ d ∈ fs, is_project_directory d = true → d.name ∈ s.known) →
      discover_all_projects tmpl now fs s = (0, fs, s)
  | [], s, _ => by rw [discover_all_projects]
  | d :: rest, s, hall => by
    have htl : ∀ x ∈ rest, is_project_directory x = true → x.name ∈ s.known :=
      fun x hx => hall x (List.mem_cons_of_mem _ hx)
    simp only [discover_all_projects]
    by_cases hc : d.isDir = true ∧ is_project_directory d = true
    · rw [if_pos hc, check_new_project_known_noop tmpl now s d hc.2
        (hall d (List.mem_cons_self _ _) hc.2)]
      dsimp only
      rw [discover_all_noop tmpl now rest s htl]
      rfl
    · rw [if_neg hc, discover_all_noop tmpl now rest s htl]

/-- C2: running the full discovery scan a second time, on the filesystem and
state the first run left behind (no outside filesystem change in between),
registers 0 new projects and leaves the filesystem and the registry state
(projects map, known-id set, `last_updated` stamp) exactly as after the
first run.  `tmpl` is `apply_template_inheritance`, which never renames the
directory it fills in. -/
theorem discover_all_projects_idempotent (tmpl : FDir → FDir)
    (now1 now2 : String) (fs : List FDir) (s : DState)
    (hname : ∀ d, (tmpl d).name = d.name) :
    discover_all_projects tmpl now2
        (discover_all_projects tmpl now1 fs s).2.1
        (discover_all_projects tmpl now1 fs s).2.2 =
      (0, (discover_all_projects tmpl now1 fs s).2.1,
          (discover_all_projects tmpl now1 fs s).2.2) := by
  apply discover_all_noop
  intro d hd hp
  exact discover_all_invariant tmpl now1 hname fs s d hd hp

/-- The C2 witness directory: a fresh Python project under `active`. -/
def c2_dir : FDir :=
  { name := "foo", parentName := "active", path := "/b/active/foo",
    mtimeIso := "t", isDir := true, entries := ["requirements.txt"] }

/-- C2 witness: the idempotence theorem applied to a concrete one-directory
filesystem and an empty starting registry, with the identity template. -/
theorem discover_all_projects_idempotent_witness :
    discover_all_projects (fun d => d) "t2"
        (discover_all_projects (fun d => d) "t1" [c2_dir] ⟨[], [], "t0"⟩).2.1
        (discover_all_projects (fun d => d) "t1" [c2_dir] ⟨[], [], "t0"⟩).2.2 =
      (0, (discover_all_projects (fun d => d) "t1" [c2_dir] ⟨[], [], "t0"⟩).2.1,
          (discover_all_projects (fun d => d) "t1" [c2_dir] ⟨[], [], "t0"⟩).2.2) :=
  discover_all_projects_idempotent (fun d => d) "t1" "t2" [c2_dir]
    ⟨[], [], "t0"⟩ (fun _ => rfl)

end Systems
